import Mathlib

/-!
Verification of the Seatify backend, a shallow embedding of
src/backend/main.py.

The embedding follows the source file closely:
  - geometry utilities normalize, haversine, calculate_bearing (lines 34-56);
  - the exposure engine compute_exposure (lines 115-182), with the external
    solar-position collaborators (astral azimuth and elevation) passed in as
    function parameters az and el, as the specification treats them as an
    external interface;
  - the seat allocator build_seat_list (lines 185-212) over exact rationals;
  - the two cached lookup collaborators geocode_location (lines 59-86) and
    get_route (lines 89-112), with the network fetch modelled as an oracle
    parameter and the module-level cache dict as explicit state.

Real arithmetic models Python float arithmetic; the Python float modulus
a % b (for b positive) is a - b * floor (a / b), and Python round with a
digit count is round-half-to-even on the scaled value.
-/

namespace Seatify

/-- The four exposure quadrants used by the exposure engine. -/
inductive Quadrant
  | front_left
  | back_left
  | front_right
  | back_right
  deriving DecidableEq, Repr

/-- The four accumulators front_left, back_left, front_right, back_right of
compute_exposure (line 120 of the source). -/
structure Totals where
  front_left : ℝ
  back_left : ℝ
  front_right : ℝ
  back_right : ℝ

/-- The all-zero totals returned on the degenerate-route guard (line 132). -/
def Totals.zero : Totals := ⟨0, 0, 0, 0⟩

/-- Adding m minutes to the accumulator selected by quadrant q
(lines 164-173 of the source). -/
def Totals.add (t : Totals) (q : Quadrant) (m : ℝ) : Totals :=
  match q with
  | .front_left => { t with front_left := t.front_left + m }
  | .back_left => { t with back_left := t.back_left + m }
  | .front_right => { t with front_right := t.front_right + m }
  | .back_right => { t with back_right := t.back_right + m }

/-- Sum of the four quadrant accumulators. -/
def Totals.sum (t : Totals) : ℝ :=
  t.front_left + t.back_left + t.front_right + t.back_right

/-- Python float modulus a % b for positive b: a - b * floor (a / b). -/
noncomputable def pymod (a b : ℝ) : ℝ := a - b * ⌊a / b⌋

/-- Source line 34: normalize maps an angle into a half-open 360-degree
interval via (angle + 180) % 360 - 180. -/
noncomputable def normalize (angle : ℝ) : ℝ := pymod (angle + 180) 360 - 180

/-- math.radians: degrees to radians. -/
noncomputable def radians (x : ℝ) : ℝ := x * Real.pi / 180

/-- math.degrees: radians to degrees. -/
noncomputable def degrees (x : ℝ) : ℝ := x * 180 / Real.pi

/-- math.atan2, the two-argument arctangent with the usual quadrant rules. -/
noncomputable def atan2 (y x : ℝ) : ℝ :=
  if 0 < x then Real.arctan (y / x)
  else if x < 0 then
    (if 0 ≤ y then Real.arctan (y / x) + Real.pi else Real.arctan (y / x) - Real.pi)
  else
    (if 0 < y then Real.pi / 2 else if y < 0 then -(Real.pi / 2) else 0)

/-- Source lines 38-48: great-circle haversine distance in km with mean
Earth radius 6371. -/
noncomputable def haversine (lat1 lon1 lat2 lon2 : ℝ) : ℝ :=
  let R : ℝ := 6371
  let dlat := radians (lat2 - lat1)
  let dlon := radians (lon2 - lon1)
  let a := Real.sin (dlat / 2) ^ 2
    + Real.cos (radians lat1) * Real.cos (radians lat2) * Real.sin (dlon / 2) ^ 2
  R * 2 * atan2 (Real.sqrt a) (Real.sqrt (1 - a))

/-- Source lines 51-56: initial great-circle bearing in degrees, wrapped
into the interval from 0 to 360 by (degrees (atan2 x y) + 360) % 360. -/
noncomputable def calculate_bearing (lat1 lon1 lat2 lon2 : ℝ) : ℝ :=
  let rlat1 := radians lat1
  let rlat2 := radians lat2
  let dlon := radians (lon2 - lon1)
  let x := Real.sin dlon * Real.cos rlat2
  let y := Real.cos rlat1 * Real.sin rlat2 - Real.sin rlat1 * Real.cos rlat2 * Real.cos dlon
  pymod (degrees (atan2 x y) + 360) 360

/-- Source line 29. -/
def TOTAL_ROWS : ℕ := 12

/-- Source line 30. -/
def SIDE_THRESHOLD : ℝ := 30

/-- Source line 31. -/
def SAMPLE_INTERVAL_KM : ℝ := 5

/-- The per-sample quadrant decision of compute_exposure, source lines
157-173: none when the sun is below the horizon or in the front or rear
dead zone, otherwise the quadrant chosen by the sign of the relative angle
and by whether its absolute value is at most 90. -/
noncomputable def classifySample (sun_el sun_az seg_bearing : ℝ) : Option Quadrant :=
  if 0 < sun_el then
    let relative := normalize (sun_az - seg_bearing)
    let abs_rel := |relative|
    if SIDE_THRESHOLD ≤ abs_rel ∧ abs_rel ≤ 150 then
      some (if 0 < relative then
              (if abs_rel ≤ 90 then Quadrant.front_right else Quadrant.back_right)
            else
              (if abs_rel ≤ 90 then Quadrant.front_left else Quadrant.back_left))
    else none
  else none

/-- Variant of classifySample in which the side comparison relative > 0 is
replaced by relative >= 0, the only change; used for the refinement claim
about the tie-break at relative equal to zero. -/
noncomputable def classifySampleGe (sun_el sun_az seg_bearing : ℝ) : Option Quadrant :=
  if 0 < sun_el then
    let relative := normalize (sun_az - seg_bearing)
    let abs_rel := |relative|
    if SIDE_THRESHOLD ≤ abs_rel ∧ abs_rel ≤ 150 then
      some (if 0 ≤ relative then
              (if abs_rel ≤ 90 then Quadrant.front_right else Quadrant.back_right)
            else
              (if abs_rel ≤ 90 then Quadrant.front_left else Quadrant.back_left))
    else none
  else none

/-- The consecutive pairs of a list: the route segments of a polyline
(the loop over i in range (len coords - 1), source line 124). -/
def segPairs {α : Type} : List α → List (α × α)
  | a :: b :: rest => (a, b) :: segPairs (b :: rest)
  | _ => []

/-- Length of one route segment; polyline points are (lon, lat) pairs in
GeoJSON order, unpacked as lon1, lat1 = coords i (source lines 125-127). -/
noncomputable def segDist (seg : (ℝ × ℝ) × (ℝ × ℝ)) : ℝ :=
  haversine seg.1.2 seg.1.1 seg.2.2 seg.2.1

/-- Total route distance: sum of the per-segment distances
(source lines 122-129). -/
noncomputable def totalDistance (coords : List (ℝ × ℝ)) : ℝ :=
  ((segPairs coords).map segDist).sum

/-- Time allotted to one segment: (seg_dist / total_distance) *
total_duration, source line 137. -/
noncomputable def segTime (total total_duration : ℝ) (seg : (ℝ × ℝ) × (ℝ × ℝ)) : ℝ :=
  segDist seg / total * total_duration

/-- Number of sub-samples of a segment: max 1 (ceil (seg_dist / 5)),
source line 143. -/
noncomputable def nSub (d : ℝ) : ℕ := max 1 (⌈d / SAMPLE_INTERVAL_KM⌉.toNat)

/-- Record of one sub-sample of the exposure walk: its share of trip time in
seconds, the solar elevation seen there, the relative angle
normalize (sun_az - seg_bearing), and the quadrant decision. -/
structure SampleInfo where
  time_s : ℝ
  elev : ℝ
  rel : ℝ
  cls : Option Quadrant

/-- One iteration of the inner sub-sample loop of compute_exposure, source
lines 146-173: midpoint fraction (sub + 0.5) / n_sub, linear interpolation
of the coordinates, sample timestamp cursor + seg_time_s * frac_mid, solar
position from the collaborators az and el, and the quadrant decision. -/
noncomputable def sampleInfo (cls : ℝ → ℝ → ℝ → Option Quadrant)
    (az el : ℝ → ℝ → ℝ → ℝ) (total total_duration : ℝ)
    (seg : (ℝ × ℝ) × (ℝ × ℝ)) (t0 : ℝ) (sub : ℕ) : SampleInfo :=
  let lon1 := seg.1.1
  let lat1 := seg.1.2
  let lon2 := seg.2.1
  let lat2 := seg.2.2
  let seg_time_s := segTime total total_duration seg
  let seg_bearing := calculate_bearing lat1 lon1 lat2 lon2
  let n_sub := nSub (segDist seg)
  let sub_time_s := seg_time_s / (n_sub : ℝ)
  let frac_mid := ((sub : ℝ) + 0.5) / (n_sub : ℝ)
  let sub_lat := lat1 + (lat2 - lat1) * frac_mid
  let sub_lon := lon1 + (lon2 - lon1) * frac_mid
  let sub_time := t0 + seg_time_s * frac_mid
  let sun_az := az sub_lat sub_lon sub_time
  let sun_el := el sub_lat sub_lon sub_time
  ⟨sub_time_s, sun_el, normalize (sun_az - seg_bearing), cls sun_el sun_az seg_bearing⟩

/-- One iteration of the outer segment loop of compute_exposure, source
lines 136-175: fold the sub-sample loop over range n_sub, adding
sub_time_s / 60 minutes to the selected accumulator for each classified
sample, then advance the wall-clock cursor by the full segment time. -/
noncomputable def segmentStep (cls : ℝ → ℝ → ℝ → Option Quadrant)
    (az el : ℝ → ℝ → ℝ → ℝ) (total total_duration : ℝ)
    (st : Totals × ℝ) (seg : (ℝ × ℝ) × (ℝ × ℝ)) : Totals × ℝ :=
  let seg_time_s := segTime total total_duration seg
  let n_sub := nSub (segDist seg)
  let sub_time_s := seg_time_s / (n_sub : ℝ)
  ((List.range n_sub).foldl (fun acc sub =>
      match (sampleInfo cls az el total total_duration seg st.2 sub).cls with
      | some q => acc.add q (sub_time_s / 60)
      | none => acc) st.1,
   st.2 + seg_time_s)

/-- compute_exposure with the per-sample quadrant decision abstracted, so
that the implemented decision and its tie-break variant share the loop
structure: the degenerate-route guard of source line 131, then the segment
fold started from zero totals and the departure timestamp. -/
noncomputable def computeExposureWith (cls : ℝ → ℝ → ℝ → Option Quadrant)
    (az el : ℝ → ℝ → ℝ → ℝ) (coords : List (ℝ × ℝ))
    (total_duration dt : ℝ) : Totals :=
  if totalDistance coords = 0 then Totals.zero
  else ((segPairs coords).foldl
          (segmentStep cls az el (totalDistance coords) total_duration)
          (Totals.zero, dt)).1

/-- Source lines 115-182: compute_exposure with the solar-position
collaborators az and el passed as parameters and the departure datetime as
a timestamp in seconds. -/
noncomputable def compute_exposure (az el : ℝ → ℝ → ℝ → ℝ)
    (coords : List (ℝ × ℝ)) (total_duration dt : ℝ) : Totals :=
  computeExposureWith classifySample az el coords total_duration dt

/-- The tie-break variant of compute_exposure that classifies a relative
angle of exactly zero as right rather than left; identical to
compute_exposure except for that one comparison. -/
noncomputable def computeExposureGe (az el : ℝ → ℝ → ℝ → ℝ)
    (coords : List (ℝ × ℝ)) (total_duration dt : ℝ) : Totals :=
  computeExposureWith classifySampleGe az el coords total_duration dt

/-- The full trace of sub-samples visited by compute_exposure, in visit
order, with the wall-clock cursor threaded exactly as in the segment
loop. -/
noncomputable def exposureSamples (cls : ℝ → ℝ → ℝ → Option Quadrant)
    (az el : ℝ → ℝ → ℝ → ℝ) (total total_duration : ℝ) :
    List ((ℝ × ℝ) × (ℝ × ℝ)) → ℝ → List SampleInfo
  | [], _ => []
  | seg :: rest, t0 =>
      (List.range (nSub (segDist seg))).map
        (sampleInfo cls az el total total_duration seg t0)
      ++ exposureSamples cls az el total total_duration rest
           (t0 + segTime total total_duration seg)

/-- The minutes actually accumulated over a sample trace: each classified
sample contributes its sub-interval time divided by sixty. -/
noncomputable def countedMinutes (l : List SampleInfo) : ℝ :=
  (l.map (fun p => if p.cls.isSome then p.time_s / 60 else 0)).sum

/-- The minutes available over a sample trace: every sample contributes its
sub-interval time divided by sixty. -/
noncomputable def allMinutes (l : List SampleInfo) : ℝ :=
  (l.map (fun p => p.time_s / 60)).sum

/-- Round-half-to-even to an integer, the rounding used by Python round
(and by repr formatting) on exact values. -/
def rhe (x : ℚ) : ℤ :=
  let f := ⌊x⌋
  let r := x - (f : ℚ)
  if r < 1 / 2 then f
  else if 1 / 2 < r then f + 1
  else if f % 2 = 0 then f else f + 1

/-- Python round (x, n): round-half-to-even at n decimal digits. -/
def round_to (n : ℕ) (x : ℚ) : ℚ := (rhe (x * 10 ^ n) : ℚ) / 10 ^ n

/-- Left or right side of the vehicle, as in the seat dicts of
build_seat_list. -/
inductive Side
  | LEFT
  | RIGHT
  deriving DecidableEq, Repr

/-- Seat placement within a row, as in the seat dicts of build_seat_list. -/
inductive SeatPos
  | WINDOW
  | MIDDLE
  | AISLE
  deriving DecidableEq, Repr

/-- The exposure dict consumed by build_seat_list, source lines 186-189;
exact rationals model the Python floats. -/
structure ExposureTotalsQ where
  front_left : ℚ
  back_left : ℚ
  front_right : ℚ
  back_right : ℚ
  deriving DecidableEq, Repr

/-- A seat dict before the exposure_ratio key is added
(source lines 200-206). -/
structure SeatBase where
  seat_id : String
  row : ℕ
  side : Side
  pos : SeatPos
  exposure_minutes : ℚ
  deriving DecidableEq, Repr

/-- A finished seat dict of build_seat_list (source lines 208-212). -/
structure Seat where
  seat_id : String
  row : ℕ
  side : Side
  pos : SeatPos
  exposure_minutes : ℚ
  exposure_ratio : ℚ
  deriving DecidableEq, Repr

/-- The five seats emitted for one row, source lines 193-206: row weights
front_w = (total_rows - row) / total_rows and back_w = row / total_rows,
side bases blended from the quadrant totals, and the fixed per-seat
multipliers 1.00, 0.25, 1.00, 0.40, 0.15. -/
def rowSeats (e : ExposureTotalsQ) (total_rows row : ℕ) : List SeatBase :=
  let front_w : ℚ := ((total_rows : ℚ) - (row : ℚ)) / (total_rows : ℚ)
  let back_w : ℚ := (row : ℚ) / (total_rows : ℚ)
  let left_base := front_w * e.front_left + back_w * e.back_left
  let right_base := front_w * e.front_right + back_w * e.back_right
  [ ⟨"L" ++ toString row ++ "A", row, Side.LEFT, SeatPos.WINDOW, round_to 2 (left_base * 1.00)⟩,
    ⟨"L" ++ toString row ++ "B", row, Side.LEFT, SeatPos.AISLE, round_to 2 (left_base * 0.25)⟩,
    ⟨"R" ++ toString row ++ "C", row, Side.RIGHT, SeatPos.WINDOW, round_to 2 (right_base * 1.00)⟩,
    ⟨"R" ++ toString row ++ "B", row, Side.RIGHT, SeatPos.MIDDLE, round_to 2 (right_base * 0.40)⟩,
    ⟨"R" ++ toString row ++ "A", row, Side.RIGHT, SeatPos.AISLE, round_to 2 (right_base * 0.15)⟩ ]

/-- All rows of seats in order, row 1 up to row total_rows
(the loop of source line 193). -/
def buildRows (e : ExposureTotalsQ) (total_rows : ℕ) : List SeatBase :=
  ((List.range total_rows).map (fun r => rowSeats e total_rows (r + 1))).flatten

/-- max of the generated exposure_minutes with default 0 on an empty list,
as in max (gen, default 0) of source line 208. -/
def maxExposure (seats : List SeatBase) : ℚ :=
  match seats.map (fun s => s.exposure_minutes) with
  | [] => 0
  | x :: xs => xs.foldl max x

/-- Source lines 185-212: build_seat_list generates the seats row by row and
then adds exposure_ratio, rounded to three digits, relative to the maximum
exposure_minutes, or 0 when that maximum is not positive. -/
def build_seat_list (e : ExposureTotalsQ) (total_rows : ℕ) : List Seat :=
  let seats := buildRows e total_rows
  let max_exp := maxExposure seats
  seats.map (fun s =>
    ⟨s.seat_id, s.row, s.side, s.pos, s.exposure_minutes,
     if 0 < max_exp then round_to 3 (s.exposure_minutes / max_exp) else 0⟩)

/-- Find a seat by its seat_id in a generated seat list. -/
def getSeat (seats : List Seat) (id : String) : Option Seat :=
  seats.find? (fun s => s.seat_id == id)

/-- Outcome of one nominatim geocoding request, as seen by
geocode_location: a coordinate hit, an empty result list, or a raised
exception (timeout, HTTP error, malformed body). -/
inductive GeoFetch
  | found (lat lon : ℚ)
  | empty
  | failed
  deriving DecidableEq, Repr

/-- Outcome of one OSRM routing request as seen by get_route: a polyline
with duration, or a raised exception. -/
inductive RouteFetch
  | ok (coords : List (ℚ × ℚ)) (duration : ℚ)
  | failed
  deriving DecidableEq, Repr

/-- The geocode cache key: place_name.strip().lower(), source line 60. -/
def geoKey (place_name : String) : String := place_name.trim.toLower

/-- Source lines 59-86: geocode_location with the network request modelled
as an oracle and the module-level cache dict as explicit state (an
association list whose most recent insertion wins). On a cache hit the
cached value, positive or negative, is returned and the oracle is not
consulted; an empty result or a raised exception stores a negative entry
under the normalized key. -/
def geocode_location (fetch : String → GeoFetch)
    (cache : List (String × Option (ℚ × ℚ))) (place_name : String) :
    Option (ℚ × ℚ) × List (String × Option (ℚ × ℚ)) :=
  let key := geoKey place_name
  match cache.lookup key with
  | some v => (v, cache)
  | none =>
    match fetch place_name with
    | GeoFetch.found lat lon => (some (lat, lon), (key, some (lat, lon)) :: cache)
    | GeoFetch.empty => (none, (key, none) :: cache)
    | GeoFetch.failed => (none, (key, none) :: cache)

/-- The route cache key of source line 93: the four coordinates formatted
at four decimal digits, modelled as the quadruple of values rounded
half-to-even to four digits. -/
def routeKey (start_lat start_lon end_lat end_lon : ℚ) : ℚ × ℚ × ℚ × ℚ :=
  (round_to 4 start_lat, round_to 4 start_lon, round_to 4 end_lat, round_to 4 end_lon)

/-- Source lines 89-112: get_route with the network request modelled as an
oracle and the module-level cache dict as explicit state. There is no
exception handler: a failed fetch propagates as an error and writes
nothing to the cache; only a successful (coords, duration) pair is
stored. -/
def get_route (fetch : RouteFetch)
    (cache : List ((ℚ × ℚ × ℚ × ℚ) × (List (ℚ × ℚ) × ℚ)))
    (start_lat start_lon end_lat end_lon : ℚ) :
    Except Unit (List (ℚ × ℚ) × ℚ) × List ((ℚ × ℚ × ℚ × ℚ) × (List (ℚ × ℚ) × ℚ)) :=
  let key := routeKey start_lat start_lon end_lat end_lon
  match cache.lookup key with
  | some v => (Except.ok v, cache)
  | none =>
    match fetch with
    | RouteFetch.ok coords duration => (Except.ok (coords, duration), (key, (coords, duration)) :: cache)
    | RouteFetch.failed => (Except.error (), cache)

/-- Concrete polyline (lon, lat pairs) whose last point is duplicated: a
positive-length segment due north from the equator followed by a
zero-length segment. -/
def cexCoords : List (ℝ × ℝ) := [(0, 0), (0, 90), (0, 90)]

/-- Concrete solar azimuth: the sun due east everywhere. -/
def cexAz : ℝ → ℝ → ℝ → ℝ := fun _ _ _ => 90

/-- Concrete solar elevation: above the horizon below latitude 90, below
the horizon at the pole, where the duplicated point sits. -/
noncomputable def cexEl : ℝ → ℝ → ℝ → ℝ := fun lat _ _ => if lat < 90 then 1 else -1

/-- First segment of cexCoords: equator to pole. -/
def cexSeg1 : (ℝ × ℝ) × (ℝ × ℝ) := (((0 : ℝ), (0 : ℝ)), ((0 : ℝ), (90 : ℝ)))

/-- Second segment of cexCoords: the duplicated pole point, length zero. -/
def cexSeg2 : (ℝ × ℝ) × (ℝ × ℝ) := (((0 : ℝ), (90 : ℝ)), ((0 : ℝ), (90 : ℝ)))

/-! Helper lemmas about the Python modulus and normalize. -/

theorem pymod_eq_fract (a b : ℝ) (hb : b ≠ 0) : pymod a b = b * Int.fract (a / b) := by
  unfold pymod Int.fract
  field_simp

theorem pymod_nonneg (a b : ℝ) (hb : 0 < b) : 0 ≤ pymod a b := by
  rw [pymod_eq_fract a b hb.ne']
  exact mul_nonneg hb.le (Int.fract_nonneg _)

theorem pymod_lt (a b : ℝ) (hb : 0 < b) : pymod a b < b := by
  rw [pymod_eq_fract a b hb.ne']
  calc b * Int.fract (a / b) < b * 1 := by
        exact mul_lt_mul_of_pos_left (Int.fract_lt_one _) hb
    _ = b := mul_one b

theorem normalize_mem_Ico (x : ℝ) : -180 ≤ normalize x ∧ normalize x < 180 := by
  unfold normalize
  constructor
  · have := pymod_nonneg (x + 180) 360 (by norm_num)
    linarith
  · have := pymod_lt (x + 180) 360 (by norm_num)
    linarith

theorem pymod_eq_self (a b : ℝ) (hb : 0 < b) (h0 : 0 ≤ a) (h1 : a < b) :
    pymod a b = a := by
  unfold pymod
  have hfl : ⌊a / b⌋ = 0 := by
    rw [Int.floor_eq_zero_iff]
    constructor
    · positivity
    · rw [div_lt_one hb]
      exact h1
  rw [hfl]
  simp

theorem normalize_eq_self (x : ℝ) (h0 : -180 ≤ x) (h1 : x < 180) : normalize x = x := by
  unfold normalize
  rw [pymod_eq_self (x + 180) 360 (by norm_num) (by linarith) (by linarith)]
  ring

theorem normalize_at_180 : normalize 180 = -180 := by
  unfold normalize pymod
  have h : ((180 : ℝ) + 180) / 360 = 1 := by norm_num
  rw [h]
  norm_num

theorem haversine_self (lat lon : ℝ) : haversine lat lon lat lon = 0 := by
  unfold haversine radians atan2
  norm_num

/-! Claim theorems about normalize. -/

/-- C5 counterexample: the claim says normalize always lands in the
half-open interval over minus 180 exclusive to 180 inclusive, but
normalize 180 is exactly minus 180, outside that interval. -/
theorem claim5_counterexample :
    normalize 180 = -180 ∧ ¬(-180 < normalize 180 ∧ normalize 180 ≤ 180) := by
  refine ⟨normalize_at_180, ?_⟩
  rw [normalize_at_180]
  norm_num

/-- C5 amended: for every real angle x, normalize x lies in the half-open
interval from minus 180 inclusive to 180 exclusive. -/
theorem claim5_range (x : ℝ) : -180 ≤ normalize x ∧ normalize x < 180 :=
  normalize_mem_Ico x

/-- C8: normalize is idempotent. -/
theorem claim8_idempotent (x : ℝ) : normalize (normalize x) = normalize x := by
  obtain ⟨h0, h1⟩ := normalize_mem_Ico x
  exact normalize_eq_self _ h0 h1

/-! Claim theorems about the degenerate-route guards. -/

/-- C4: whenever the total great-circle distance of the polyline is zero,
compute_exposure returns the all-zero totals for every duration, departure
timestamp and solar-position function; the guard returns before any
per-segment division by the total distance. -/
theorem claim4_zero_distance (az el : ℝ → ℝ → ℝ → ℝ) (coords : List (ℝ × ℝ))
    (D dt : ℝ) (h : totalDistance coords = 0) :
    compute_exposure az el coords D dt = Totals.zero := by
  unfold compute_exposure computeExposureWith
  rw [if_pos h]

/-- C4 witness: a two-point polyline with both points equal has total
distance zero and yields the all-zero totals. -/
theorem claim4_witness :
    totalDistance [((0 : ℝ), (0 : ℝ)), (0, 0)] = 0 ∧
      compute_exposure (fun _ _ _ => 0) (fun _ _ _ => 0)
        [((0 : ℝ), (0 : ℝ)), (0, 0)] 600 0 = Totals.zero := by
  have h : totalDistance [((0 : ℝ), (0 : ℝ)), (0, 0)] = 0 := by
    simp [totalDistance, segPairs, segDist, haversine_self]
  exact ⟨h, claim4_zero_distance _ _ _ _ _ h⟩

/-- C9: for a polyline with fewer than two points there are no segments,
the total distance is zero, and compute_exposure returns the all-zero
totals without error. -/
theorem claim9_short_polyline (az el : ℝ → ℝ → ℝ → ℝ) (coords : List (ℝ × ℝ))
    (D dt : ℝ) (h : coords.length < 2) :
    compute_exposure az el coords D dt = Totals.zero := by
  have hsp : segPairs coords = [] := by
    match coords, h with
    | [], _ => rfl
    | [a], _ => rfl
  have htd : totalDistance coords = 0 := by
    unfold totalDistance
    rw [hsp]
    simp
  unfold compute_exposure computeExposureWith
  rw [if_pos htd]

/-- C9 witness: the empty polyline has length below two and yields the
all-zero totals. -/
theorem claim9_witness :
    ([] : List (ℝ × ℝ)).length < 2 ∧
      compute_exposure (fun _ _ _ => 0) (fun _ _ _ => 0) [] 600 0 = Totals.zero :=
  ⟨by norm_num, claim9_short_polyline _ _ _ _ _ (by norm_num)⟩

/-! The per-sample classification and the tie-break refinement. -/

theorem classifySample_isSome_iff (sun_el sun_az seg_bearing : ℝ) :
    (classifySample sun_el sun_az seg_bearing).isSome = true ↔
      (0 < sun_el ∧ 30 ≤ |normalize (sun_az - seg_bearing)| ∧
        |normalize (sun_az - seg_bearing)| ≤ 150) := by
  unfold classifySample SIDE_THRESHOLD
  by_cases h1 : 0 < sun_el
  · simp only [if_pos h1]
    by_cases h2 : 30 ≤ |normalize (sun_az - seg_bearing)| ∧
        |normalize (sun_az - seg_bearing)| ≤ 150
    · simp [h1, h2]
    · simp only [if_neg h2]
      simp [h1, h2]
  · simp [h1]

/-- C3: a sample accumulates exposure exactly when the solar elevation is
strictly positive and the absolute normalized relative angle lies between
30 and 150; a classified sample with positive relative angle goes to a
right quadrant, one with non-positive relative angle (including exactly
zero) to a left quadrant, and within the chosen side an absolute relative
angle of at most 90 selects the front quadrant, above 90 the back
quadrant. -/
theorem claim3_classification (sun_el sun_az seg_bearing : ℝ) :
    ((∃ q, classifySample sun_el sun_az seg_bearing = some q) ↔
      (0 < sun_el ∧ 30 ≤ |normalize (sun_az - seg_bearing)| ∧
        |normalize (sun_az - seg_bearing)| ≤ 150)) ∧
    (∀ q, classifySample sun_el sun_az seg_bearing = some q →
      ((0 < normalize (sun_az - seg_bearing) →
          q = Quadrant.front_right ∨ q = Quadrant.back_right) ∧
        (normalize (sun_az - seg_bearing) ≤ 0 →
          q = Quadrant.front_left ∨ q = Quadrant.back_left) ∧
        (|normalize (sun_az - seg_bearing)| ≤ 90 →
          q = Quadrant.front_right ∨ q = Quadrant.front_left) ∧
        (90 < |normalize (sun_az - seg_bearing)| →
          q = Quadrant.back_right ∨ q = Quadrant.back_left))) := by
  constructor
  · rw [← classifySample_isSome_iff]
    exact ⟨fun ⟨q, hq⟩ => by simp [hq], fun h => by
      cases hc : classifySample sun_el sun_az seg_bearing with
      | none => rw [hc] at h; cases h
      | some q => exact ⟨q, rfl⟩⟩
  · intro q hq
    unfold classifySample SIDE_THRESHOLD at hq
    by_cases h1 : 0 < sun_el
    · rw [if_pos h1] at hq
      by_cases h2 : 30 ≤ |normalize (sun_az - seg_bearing)| ∧
          |normalize (sun_az - seg_bearing)| ≤ 150
      · rw [if_pos h2] at hq
        have hq' : q = (if 0 < normalize (sun_az - seg_bearing) then
              (if |normalize (sun_az - seg_bearing)| ≤ 90 then Quadrant.front_right
                else Quadrant.back_right)
            else
              (if |normalize (sun_az - seg_bearing)| ≤ 90 then Quadrant.front_left
                else Quadrant.back_left)) := by
          exact (Option.some.inj hq).symm
        by_cases h3 : 0 < normalize (sun_az - seg_bearing) <;>
          by_cases h4 : |normalize (sun_az - seg_bearing)| ≤ 90 <;>
          simp only [h3, h4, if_pos, if_neg, if_true, if_false] at hq' <;>
          subst hq' <;>
          refine ⟨fun h => ?_, fun h => ?_, fun h => ?_, fun h => ?_⟩ <;>
          first
            | (left; rfl)
            | (right; rfl)
            | linarith
      · rw [if_neg h2] at hq
        cases hq
    · rw [if_neg h1] at hq
      cases hq

/-- C3 witness: at elevation 1, azimuth 90 and bearing 0 the sample is
classified, and its quadrant (front right) is on the right side. -/
theorem claim3_witness :
    ((∃ q, classifySample 1 90 0 = some q) ∧
      (Quadrant.front_right = Quadrant.front_right ∨
        Quadrant.front_right = Quadrant.back_right)) := by
  have hn : normalize ((90 : ℝ) - 0) = 90 := by
    rw [show ((90 : ℝ) - 0) = 90 by norm_num]
    exact normalize_eq_self 90 (by norm_num) (by norm_num)
  have hcls : classifySample 1 90 0 = some Quadrant.front_right := by
    unfold classifySample SIDE_THRESHOLD
    rw [if_pos one_pos]
    rw [hn]
    norm_num
  exact ⟨(claim3_classification 1 90 0).1.mpr
      ⟨one_pos, by rw [hn]; norm_num, by rw [hn]; norm_num⟩,
    ((claim3_classification 1 90 0).2 Quadrant.front_right hcls).1 (by rw [hn]; norm_num)⟩

theorem classifySample_eq_ge (sun_el sun_az seg_bearing : ℝ) :
    classifySample sun_el sun_az seg_bearing = classifySampleGe sun_el sun_az seg_bearing := by
  unfold classifySample classifySampleGe SIDE_THRESHOLD
  by_cases h1 : 0 < sun_el
  · simp only [if_pos h1]
    by_cases h2 : 30 ≤ |normalize (sun_az - seg_bearing)| ∧
        |normalize (sun_az - seg_bearing)| ≤ 150
    · simp only [if_pos h2]
      have hne : normalize (sun_az - seg_bearing) ≠ 0 := by
        intro h0
        rw [h0] at h2
        norm_num at h2
      by_cases h3 : 0 < normalize (sun_az - seg_bearing)
      · rw [if_pos h3, if_pos h3.le]
      · have hneg : ¬(0 ≤ normalize (sun_az - seg_bearing)) := by
          intro hle
          exact h3 (lt_of_le_of_ne hle (Ne.symm hne))
        rw [if_neg h3, if_neg hneg]
    · rw [if_neg h2, if_neg h2]
  · rw [if_neg h1, if_neg h1]

/-! Claim theorems about the seat allocator. -/

/-- C2 counterexample: on totals front_left 60 and the rest 0 with 12 rows,
the seat L1A receives exposure_minutes 55, not the claimed 60, because the
front weight of row 1 is 11 twelfths rather than 1. -/
theorem claim2_counterexample :
    (getSeat (build_seat_list ⟨60, 0, 0, 0⟩ 12) ("L1A")).map (fun s => s.exposure_minutes) = some 55 ∧
      (55 : ℚ) ≠ 60 := by
  constructor
  · have hid : (("L" ++ toString (1 : ℕ) ++ "A" : String) == "L1A") = true := by decide
    norm_num [getSeat, build_seat_list, buildRows, rowSeats, maxExposure, round_to, rhe,
      List.range_succ, hid]
  · norm_num

set_option maxHeartbeats 2000000 in
/-- C2 amended: on totals front_left 60 and the rest 0 with 12 rows, row 1
has front weight 11 twelfths, so L1A gets exposure_minutes 55.00 and L1B
gets 13.75; L12A gets 0.00; every RIGHT-side seat gets 0; the maximum 55
is at L1A, whose exposure_ratio is 1.0, and the ratio of L1B is 0.25. -/
theorem claim2_seats :
    Seat.mk ("L1A") 1 Side.LEFT SeatPos.WINDOW 55 1 ∈ build_seat_list ⟨60, 0, 0, 0⟩ 12 ∧
    Seat.mk ("L1B") 1 Side.LEFT SeatPos.AISLE (55 / 4) (1 / 4) ∈ build_seat_list ⟨60, 0, 0, 0⟩ 12 ∧
    Seat.mk ("L12A") 12 Side.LEFT SeatPos.WINDOW 0 0 ∈ build_seat_list ⟨60, 0, 0, 0⟩ 12 ∧
    ((build_seat_list ⟨60, 0, 0, 0⟩ 12).filter (fun s => s.side == Side.RIGHT)).map
        (fun s => s.exposure_minutes) = List.replicate 36 (0 : ℚ) := by
  have hLR : (Side.LEFT == Side.RIGHT) = false := by decide
  have hRR : (Side.RIGHT == Side.RIGHT) = true := by decide
  refine ⟨?_, ?_, ?_, ?_⟩ <;>
    norm_num [build_seat_list, buildRows, rowSeats, maxExposure, round_to, rhe,
      List.range_succ, hLR, hRR, List.replicate] <;>
    decide

/-! Helper lemmas for the seat-allocator ratio bounds. -/

theorem rhe_def (x : ℚ) :
    rhe x = if x - (⌊x⌋ : ℚ) < 1 / 2 then ⌊x⌋
      else if 1 / 2 < x - (⌊x⌋ : ℚ) then ⌊x⌋ + 1
      else if ⌊x⌋ % 2 = 0 then ⌊x⌋ else ⌊x⌋ + 1 := rfl

theorem Int.floor_le_rhe (x : ℚ) : ⌊x⌋ ≤ rhe x := by
  rw [rhe_def]
  split_ifs <;> omega

theorem rhe_le_ceil (x : ℚ) : rhe x ≤ ⌈x⌉ := by
  rw [rhe_def]
  split_ifs with h1 h2 h3
  · exact Int.floor_le_ceil x
  · have hx : (⌊x⌋ : ℚ) < x := by linarith
    have := Int.lt_ceil.mpr hx
    omega
  · have hx : (⌊x⌋ : ℚ) < x := by linarith
    have := Int.lt_ceil.mpr hx
    omega
  · have hx : (⌊x⌋ : ℚ) < x := by linarith
    have := Int.lt_ceil.mpr hx
    omega

theorem rhe_nonneg (x : ℚ) (hx : 0 ≤ x) : 0 ≤ rhe x := by
  have h0 : (0 : ℤ) ≤ ⌊x⌋ := Int.le_floor.mpr (by exact_mod_cast hx)
  have := Int.floor_le_rhe x
  omega

theorem rhe_le_of_le (x : ℚ) (n : ℤ) (h : x ≤ n) : rhe x ≤ n := by
  have h1 : ⌈x⌉ ≤ n := Int.ceil_le.mpr h
  have := rhe_le_ceil x
  omega

theorem rhe_intCast (n : ℤ) : rhe (n : ℚ) = n := by
  unfold rhe
  rw [Int.floor_intCast]
  norm_num

theorem round_to_nonneg (n : ℕ) (x : ℚ) (hx : 0 ≤ x) : 0 ≤ round_to n x := by
  unfold round_to
  have h1 : (0 : ℤ) ≤ rhe (x * 10 ^ n) := rhe_nonneg _ (by positivity)
  have h2 : (0 : ℚ) ≤ (rhe (x * 10 ^ n) : ℚ) := by exact_mod_cast h1
  positivity

theorem round_to_le_one (n : ℕ) (x : ℚ) (hx : x ≤ 1) : round_to n x ≤ 1 := by
  unfold round_to
  have h1 : rhe (x * 10 ^ n) ≤ ((10 : ℤ) ^ n) := by
    apply rhe_le_of_le
    push_cast
    nlinarith [pow_pos (show (0 : ℚ) < 10 by norm_num) n]
  rw [div_le_one (by positivity)]
  exact_mod_cast h1

theorem round_to_zero_eq (n : ℕ) : round_to n 0 = 0 := by
  unfold round_to
  rw [zero_mul, show ((0 : ℚ) = ((0 : ℤ) : ℚ)) by norm_num, rhe_intCast]
  norm_num

theorem round_to_one_eq (n : ℕ) : round_to n 1 = 1 := by
  unfold round_to
  rw [one_mul, show ((10 : ℚ) ^ n = (((10 : ℤ) ^ n : ℤ) : ℚ)) by push_cast; ring, rhe_intCast]
  rw [div_self (by positivity)]

theorem foldl_max_le_init (l : List ℚ) (a : ℚ) : a ≤ l.foldl max a := by
  induction l generalizing a with
  | nil => exact le_refl a
  | cons b t ih => exact le_trans (le_max_left a b) (ih (max a b))

theorem mem_le_foldl_max (l : List ℚ) (a x : ℚ) (hx : x ∈ l) : x ≤ l.foldl max a := by
  induction l generalizing a with
  | nil => cases hx
  | cons b t ih =>
    rcases List.mem_cons.mp hx with h | h
    · subst h
      exact le_trans (le_max_right a x) (foldl_max_le_init t (max a x))
    · exact ih (max a b) h

theorem foldl_max_mem (l : List ℚ) (a : ℚ) : l.foldl max a = a ∨ l.foldl max a ∈ l := by
  induction l generalizing a with
  | nil => exact Or.inl rfl
  | cons b t ih =>
    rcases ih (max a b) with h | h
    · rcases max_choice a b with hm | hm
      · exact Or.inl (by rw [List.foldl_cons, h, hm])
      · exact Or.inr (by rw [List.foldl_cons, h, hm]; exact List.mem_cons_self b t)
    · exact Or.inr (List.mem_cons_of_mem b h)

theorem le_maxExposure (seats : List SeatBase) (s : SeatBase) (hs : s ∈ seats) :
    s.exposure_minutes ≤ maxExposure seats := by
  unfold maxExposure
  cases seats with
  | nil => cases hs
  | cons a t =>
    rw [List.map_cons]
    rcases List.mem_cons.mp hs with h | h
    · subst h
      exact foldl_max_le_init _ _
    · exact mem_le_foldl_max _ _ _ (List.mem_map.mpr ⟨s, h, rfl⟩)

theorem maxExposure_attained (seats : List SeatBase) (h : seats ≠ []) :
    maxExposure seats ∈ seats.map (fun s => s.exposure_minutes) := by
  cases seats with
  | nil => exact absurd rfl h
  | cons a t =>
    have hm : maxExposure (a :: t)
        = (t.map (fun s => s.exposure_minutes)).foldl max a.exposure_minutes := rfl
    rw [hm, List.map_cons]
    rcases foldl_max_mem (t.map (fun s => s.exposure_minutes)) a.exposure_minutes with h1 | h1
    · rw [h1]
      exact List.mem_cons_self _ _
    · exact List.mem_cons_of_mem _ h1

theorem mem_buildRows (e : ExposureTotalsQ) (tr : ℕ) (s : SeatBase)
    (hs : s ∈ buildRows e tr) : ∃ r, r < tr ∧ s ∈ rowSeats e tr (r + 1) := by
  unfold buildRows at hs
  rw [List.mem_flatten] at hs
  obtain ⟨l, hl, hsl⟩ := hs
  rw [List.mem_map] at hl
  obtain ⟨r, hr, rfl⟩ := hl
  exact ⟨r, List.mem_range.mp hr, hsl⟩

theorem rowSeats_nonneg (e : ExposureTotalsQ) (tr row : ℕ)
    (he : 0 ≤ e.front_left ∧ 0 ≤ e.back_left ∧ 0 ≤ e.front_right ∧ 0 ≤ e.back_right)
    (hrow : row ≤ tr) (s : SeatBase) (hs : s ∈ rowSeats e tr row) :
    0 ≤ s.exposure_minutes := by
  obtain ⟨h1, h2, h3, h4⟩ := he
  have htr : (0 : ℚ) ≤ (tr : ℚ) := by positivity
  have hfw : (0 : ℚ) ≤ ((tr : ℚ) - (row : ℚ)) / (tr : ℚ) := by
    apply div_nonneg _ htr
    have : (row : ℚ) ≤ (tr : ℚ) := by exact_mod_cast hrow
    linarith
  have hbw : (0 : ℚ) ≤ (row : ℚ) / (tr : ℚ) := by positivity
  have hlb : 0 ≤ ((tr : ℚ) - (row : ℚ)) / (tr : ℚ) * e.front_left
      + (row : ℚ) / (tr : ℚ) * e.back_left :=
    add_nonneg (mul_nonneg hfw h1) (mul_nonneg hbw h2)
  have hrb : 0 ≤ ((tr : ℚ) - (row : ℚ)) / (tr : ℚ) * e.front_right
      + (row : ℚ) / (tr : ℚ) * e.back_right :=
    add_nonneg (mul_nonneg hfw h3) (mul_nonneg hbw h4)
  simp only [rowSeats, List.mem_cons, List.not_mem_nil, or_false] at hs
  rcases hs with h | h | h | h | h <;> subst h <;>
    first
      | exact round_to_nonneg _ _ (mul_nonneg hlb (by norm_num))
      | exact round_to_nonneg _ _ (mul_nonneg hrb (by norm_num))

theorem buildRows_nonneg (e : ExposureTotalsQ) (tr : ℕ)
    (he : 0 ≤ e.front_left ∧ 0 ≤ e.back_left ∧ 0 ≤ e.front_right ∧ 0 ≤ e.back_right)
    (s : SeatBase) (hs : s ∈ buildRows e tr) : 0 ≤ s.exposure_minutes := by
  obtain ⟨r, hr, hmem⟩ := mem_buildRows e tr s hs
  exact rowSeats_nonneg e tr (r + 1) he (by omega) s hmem

theorem buildRows_zero (tr : ℕ) (s : SeatBase)
    (hs : s ∈ buildRows ⟨0, 0, 0, 0⟩ tr) : s.exposure_minutes = 0 := by
  obtain ⟨r, hr, hmem⟩ := mem_buildRows _ tr s hs
  simp only [rowSeats, List.mem_cons, List.not_mem_nil, or_false] at hmem
  rcases hmem with h | h | h | h | h <;> subst h <;>
    simp only [mul_zero, zero_add, zero_mul, add_zero] <;>
    exact round_to_zero_eq 2

theorem rhe_eq_zero (x : ℚ) (h0 : 0 ≤ x) (h1 : x < 1 / 2) : rhe x = 0 := by
  have hf : ⌊x⌋ = 0 := by
    rw [Int.floor_eq_zero_iff]
    exact ⟨h0, by linarith⟩
  rw [rhe_def, hf]
  push_cast
  rw [if_pos (by linarith)]

theorem round_to_eq_zero (n : ℕ) (x : ℚ) (h0 : 0 ≤ x) (h1 : x * 10 ^ n < 1 / 2) :
    round_to n x = 0 := by
  unfold round_to
  rw [rhe_eq_zero _ (by positivity) h1]
  norm_num

theorem mem_buildRows_of_row (e : ExposureTotalsQ) (tr r : ℕ) (hr : r < tr)
    (s : SeatBase) (hs : s ∈ rowSeats e tr (r + 1)) : s ∈ buildRows e tr := by
  unfold buildRows
  exact List.mem_flatten.mpr ⟨rowSeats e tr (r + 1),
    List.mem_map.mpr ⟨r, List.mem_range.mpr hr, rfl⟩, hs⟩

theorem rowSeats_map_minutes (e : ExposureTotalsQ) (tr row : ℕ) :
    (rowSeats e tr row).map (fun s => s.exposure_minutes)
      = [round_to 2 ((((tr : ℚ) - (row : ℚ)) / (tr : ℚ) * e.front_left
            + (row : ℚ) / (tr : ℚ) * e.back_left) * 1.00),
         round_to 2 ((((tr : ℚ) - (row : ℚ)) / (tr : ℚ) * e.front_left
            + (row : ℚ) / (tr : ℚ) * e.back_left) * 0.25),
         round_to 2 ((((tr : ℚ) - (row : ℚ)) / (tr : ℚ) * e.front_right
            + (row : ℚ) / (tr : ℚ) * e.back_right) * 1.00),
         round_to 2 ((((tr : ℚ) - (row : ℚ)) / (tr : ℚ) * e.front_right
            + (row : ℚ) / (tr : ℚ) * e.back_right) * 0.40),
         round_to 2 ((((tr : ℚ) - (row : ℚ)) / (tr : ℚ) * e.front_right
            + (row : ℚ) / (tr : ℚ) * e.back_right) * 0.15)] := rfl

theorem c6_row_e2 (row : ℕ) :
    (rowSeats ⟨60, 60, 0, 0⟩ 12 row).map (fun s => s.exposure_minutes)
      = [60, 15, 0, 0, 0] := by
  rw [rowSeats_map_minutes]
  ring_nf
  norm_num [round_to, rhe]

/-- C6 amended: for non-negative totals every exposure_ratio lies in the
closed unit interval; whenever the maximum rounded exposure_minutes is
positive, some seat (a seat attaining the maximum) has ratio exactly 1;
and when all four totals are zero every ratio is 0. -/
theorem claim6_ratios (e : ExposureTotalsQ) (total_rows : ℕ)
    (h : 0 ≤ e.front_left ∧ 0 ≤ e.back_left ∧ 0 ≤ e.front_right ∧ 0 ≤ e.back_right) :
    (∀ s ∈ build_seat_list e total_rows, 0 ≤ s.exposure_ratio ∧ s.exposure_ratio ≤ 1) ∧
    (0 < maxExposure (buildRows e total_rows) →
      ∃ s ∈ build_seat_list e total_rows, s.exposure_ratio = 1) ∧
    (e = ⟨0, 0, 0, 0⟩ → ∀ s ∈ build_seat_list e total_rows, s.exposure_ratio = 0) := by
  refine ⟨?_, ?_, ?_⟩
  · intro s hs
    unfold build_seat_list at hs
    rw [List.mem_map] at hs
    obtain ⟨sb, hsb, rfl⟩ := hs
    dsimp only
    by_cases hmax : 0 < maxExposure (buildRows e total_rows)
    · rw [if_pos hmax]
      have hm0 : 0 ≤ sb.exposure_minutes := buildRows_nonneg _ _ h _ hsb
      have hmle : sb.exposure_minutes ≤ maxExposure (buildRows e total_rows) :=
        le_maxExposure _ _ hsb
      exact ⟨round_to_nonneg _ _ (div_nonneg hm0 hmax.le),
        round_to_le_one _ _ ((div_le_one hmax).mpr hmle)⟩
    · rw [if_neg hmax]
      norm_num
  · intro hmax
    have hne : buildRows e total_rows ≠ [] := by
      intro h0
      rw [h0] at hmax
      norm_num [maxExposure] at hmax
    have hmem := maxExposure_attained _ hne
    rw [List.mem_map] at hmem
    obtain ⟨sb, hsb, hval⟩ := hmem
    refine ⟨⟨sb.seat_id, sb.row, sb.side, sb.pos, sb.exposure_minutes,
        if 0 < maxExposure (buildRows e total_rows) then
          round_to 3 (sb.exposure_minutes / maxExposure (buildRows e total_rows))
        else 0⟩, ?_, ?_⟩
    · unfold build_seat_list
      exact List.mem_map.mpr ⟨sb, hsb, rfl⟩
    · dsimp only
      rw [if_pos hmax, hval, div_self hmax.ne']
      exact round_to_one_eq 3
  · intro he0 s hs
    subst he0
    have hmax0 : maxExposure (buildRows ⟨0, 0, 0, 0⟩ total_rows) = 0 := by
      by_cases hne : buildRows ⟨0, 0, 0, 0⟩ total_rows = []
      · rw [hne]
        rfl
      · have hmem := maxExposure_attained _ hne
        rw [List.mem_map] at hmem
        obtain ⟨sb, hsb, hv⟩ := hmem
        rw [← hv]
        exact buildRows_zero total_rows sb hsb
    unfold build_seat_list at hs
    rw [List.mem_map] at hs
    obtain ⟨sb, hsb, rfl⟩ := hs
    dsimp only
    have hneg : ¬(0 < maxExposure (buildRows ⟨0, 0, 0, 0⟩ total_rows)) := by
      rw [hmax0]
      norm_num
    rw [if_neg hneg]

/-- C6 witness: the totals with front_left 60 and the rest 0 are
non-negative, and the amended conclusion holds for them with 12 rows. -/
theorem claim6_witness :
    ((0 : ℚ) ≤ 60 ∧ (0 : ℚ) ≤ 0 ∧ (0 : ℚ) ≤ 0 ∧ (0 : ℚ) ≤ 0) ∧
    ((∀ s ∈ build_seat_list ⟨60, 0, 0, 0⟩ 12, 0 ≤ s.exposure_ratio ∧ s.exposure_ratio ≤ 1) ∧
      (0 < maxExposure (buildRows ⟨60, 0, 0, 0⟩ 12) →
        ∃ s ∈ build_seat_list ⟨60, 0, 0, 0⟩ 12, s.exposure_ratio = 1) ∧
      ((⟨60, 0, 0, 0⟩ : ExposureTotalsQ) = ⟨0, 0, 0, 0⟩ →
        ∀ s ∈ build_seat_list ⟨60, 0, 0, 0⟩ 12, s.exposure_ratio = 0)) :=
  ⟨by norm_num, claim6_ratios ⟨60, 0, 0, 0⟩ 12 (by norm_num)⟩

/-! Correspondence between the exposure fold and its sample trace. -/

theorem Totals.sum_add (t : Totals) (q : Quadrant) (m : ℝ) :
    (t.add q m).sum = t.sum + m := by
  cases q <;> simp [Totals.add, Totals.sum] <;> ring

theorem sum_foldl_add (l : List ℕ) (g : ℕ → Option Quadrant) (c : ℝ) (T : Totals) :
    (l.foldl (fun acc k => match g k with | some q => acc.add q c | none => acc) T).sum
      = T.sum + (l.map (fun k => if (g k).isSome then c else 0)).sum := by
  induction l generalizing T with
  | nil => simp
  | cons k l ih =>
    rw [List.foldl_cons, List.map_cons, List.sum_cons]
    cases hk : g k with
    | none =>
      simp only [hk, Option.isSome_none, Bool.false_eq_true, if_false]
      rw [ih]
      ring
    | some q =>
      simp only [hk, Option.isSome_some, if_true]
      rw [ih, Totals.sum_add]
      ring

theorem sampleInfo_time (cls : ℝ → ℝ → ℝ → Option Quadrant) (az el : ℝ → ℝ → ℝ → ℝ)
    (total D : ℝ) (seg : (ℝ × ℝ) × (ℝ × ℝ)) (t0 : ℝ) (sub : ℕ) :
    (sampleInfo cls az el total D seg t0 sub).time_s
      = segTime total D seg / (nSub (segDist seg) : ℝ) := rfl

theorem segmentStep_snd (cls : ℝ → ℝ → ℝ → Option Quadrant) (az el : ℝ → ℝ → ℝ → ℝ)
    (total D : ℝ) (st : Totals × ℝ) (seg : (ℝ × ℝ) × (ℝ × ℝ)) :
    (segmentStep cls az el total D st seg).2 = st.2 + segTime total D seg := rfl

theorem segmentStep_fst_sum (cls : ℝ → ℝ → ℝ → Option Quadrant) (az el : ℝ → ℝ → ℝ → ℝ)
    (total D : ℝ) (st : Totals × ℝ) (seg : (ℝ × ℝ) × (ℝ × ℝ)) :
    ((segmentStep cls az el total D st seg).1).sum
      = st.1.sum + countedMinutes ((List.range (nSub (segDist seg))).map
          (sampleInfo cls az el total D seg st.2)) := by
  unfold countedMinutes
  rw [List.map_map]
  exact sum_foldl_add (List.range (nSub (segDist seg)))
    (fun sub => (sampleInfo cls az el total D seg st.2 sub).cls)
    (segTime total D seg / (nSub (segDist seg) : ℝ) / 60) st.1

theorem countedMinutes_append (l1 l2 : List SampleInfo) :
    countedMinutes (l1 ++ l2) = countedMinutes l1 + countedMinutes l2 := by
  unfold countedMinutes
  rw [List.map_append, List.sum_append]

theorem allMinutes_append (l1 l2 : List SampleInfo) :
    allMinutes (l1 ++ l2) = allMinutes l1 + allMinutes l2 := by
  unfold allMinutes
  rw [List.map_append, List.sum_append]

theorem foldl_segments_sum (cls : ℝ → ℝ → ℝ → Option Quadrant) (az el : ℝ → ℝ → ℝ → ℝ)
    (total D : ℝ) (segs : List ((ℝ × ℝ) × (ℝ × ℝ))) (T : Totals) (t0 : ℝ) :
    ((segs.foldl (segmentStep cls az el total D) (T, t0)).1).sum
      = T.sum + countedMinutes (exposureSamples cls az el total D segs t0) := by
  induction segs generalizing T t0 with
  | nil =>
    simp [exposureSamples, countedMinutes]
  | cons seg rest ih =>
    rw [List.foldl_cons]
    have h2 : segmentStep cls az el total D (T, t0) seg
        = ((segmentStep cls az el total D (T, t0) seg).1, t0 + segTime total D seg) := by
      apply Prod.ext
      · rfl
      · exact segmentStep_snd cls az el total D (T, t0) seg
    rw [h2, ih, segmentStep_fst_sum]
    rw [exposureSamples, countedMinutes_append]
    ring

theorem countedMinutes_le_allMinutes (l : List SampleInfo)
    (h : ∀ p ∈ l, 0 ≤ p.time_s) : countedMinutes l ≤ allMinutes l := by
  induction l with
  | nil => simp [countedMinutes, allMinutes]
  | cons p l ih =>
    have hp : 0 ≤ p.time_s := h p (List.mem_cons_self p l)
    have ht : countedMinutes l ≤ allMinutes l :=
      ih fun q hq => h q (List.mem_cons_of_mem p hq)
    unfold countedMinutes allMinutes at ht ⊢
    rw [List.map_cons, List.sum_cons, List.map_cons, List.sum_cons]
    by_cases hc : p.cls.isSome
    · rw [if_pos hc]
      linarith
    · rw [if_neg hc]
      have : 0 ≤ p.time_s / 60 := by positivity
      linarith

theorem countedMinutes_eq_iff (l : List SampleInfo)
    (h : ∀ p ∈ l, 0 ≤ p.time_s) :
    countedMinutes l = allMinutes l ↔ ∀ p ∈ l, 0 < p.time_s → p.cls.isSome = true := by
  induction l with
  | nil => simp [countedMinutes, allMinutes]
  | cons p l ih =>
    have hp : 0 ≤ p.time_s := h p (List.mem_cons_self p l)
    have hrest : ∀ q ∈ l, 0 ≤ q.time_s := fun q hq => h q (List.mem_cons_of_mem p hq)
    have hle : countedMinutes l ≤ allMinutes l := countedMinutes_le_allMinutes l hrest
    have hiff := ih hrest
    constructor
    · intro heq q hq hqt
      unfold countedMinutes allMinutes at heq
      rw [List.map_cons, List.sum_cons, List.map_cons, List.sum_cons] at heq
      by_cases hc : p.cls.isSome
      · rw [if_pos hc] at heq
        have heq2 : countedMinutes l = allMinutes l := by
          unfold countedMinutes allMinutes
          linarith
        rcases List.mem_cons.mp hq with hq | hq
        · subst hq
          exact hc
        · exact hiff.mp heq2 q hq hqt
      · rw [if_neg hc] at heq
        have h60 : 0 ≤ p.time_s / 60 := by positivity
        have heq2 : countedMinutes l = allMinutes l := by
          unfold countedMinutes allMinutes
          unfold countedMinutes allMinutes at hle
          linarith
        have hzero : p.time_s / 60 = 0 := by
          unfold countedMinutes allMinutes at heq2
          linarith
        rcases List.mem_cons.mp hq with hq | hq
        · exfalso
          rw [hq] at hqt
          have hps : p.time_s = 0 := by linarith [hzero]
          rw [hps] at hqt
          exact lt_irrefl 0 hqt
        · exact hiff.mp heq2 q hq hqt
    · intro hall
      have heq2 : countedMinutes l = allMinutes l :=
        hiff.mpr fun q hq hqt => hall q (List.mem_cons_of_mem p hq) hqt
      unfold countedMinutes allMinutes
      rw [List.map_cons, List.sum_cons, List.map_cons, List.sum_cons]
      unfold countedMinutes allMinutes at heq2
      by_cases hc : p.cls.isSome
      · rw [if_pos hc]
        linarith
      · rw [if_neg hc]
        have hz : p.time_s = 0 := by
          by_contra hne
          have : 0 < p.time_s := lt_of_le_of_ne hp (Ne.symm hne)
          exact hc (hall p (List.mem_cons_self p l) this)
        rw [hz]
        norm_num
        linarith

theorem nSub_pos (d : ℝ) : 0 < nSub d := le_max_left 1 _

theorem atan2_nonneg (y x : ℝ) (hy : 0 ≤ y) (hx : 0 ≤ x) : 0 ≤ atan2 y x := by
  unfold atan2
  split_ifs with h1 h2 h3 h4
  · rw [← Real.arctan_zero]
    exact Real.arctan_strictMono.monotone (div_nonneg hy h1.le)
  all_goals linarith [Real.pi_pos]

theorem haversine_nonneg (lat1 lon1 lat2 lon2 : ℝ) :
    0 ≤ haversine lat1 lon1 lat2 lon2 := by
  unfold haversine
  have h := atan2_nonneg
    (Real.sqrt (Real.sin (radians (lat2 - lat1) / 2) ^ 2
      + Real.cos (radians lat1) * Real.cos (radians lat2)
        * Real.sin (radians (lon2 - lon1) / 2) ^ 2))
    (Real.sqrt (1 - (Real.sin (radians (lat2 - lat1) / 2) ^ 2
      + Real.cos (radians lat1) * Real.cos (radians lat2)
        * Real.sin (radians (lon2 - lon1) / 2) ^ 2)))
    (Real.sqrt_nonneg _) (Real.sqrt_nonneg _)
  linarith

theorem segDist_nonneg (seg : (ℝ × ℝ) × (ℝ × ℝ)) : 0 ≤ segDist seg :=
  haversine_nonneg _ _ _ _

theorem segTime_nonneg (total D : ℝ) (seg : (ℝ × ℝ) × (ℝ × ℝ))
    (htotal : 0 < total) (hD : 0 ≤ D) : 0 ≤ segTime total D seg := by
  unfold segTime
  have := segDist_nonneg seg
  positivity

theorem mem_exposureSamples (cls : ℝ → ℝ → ℝ → Option Quadrant) (az el : ℝ → ℝ → ℝ → ℝ)
    (total D : ℝ) (segs : List ((ℝ × ℝ) × (ℝ × ℝ))) (t0 : ℝ) (p : SampleInfo)
    (hp : p ∈ exposureSamples cls az el total D segs t0) :
    ∃ seg t1 sub, p = sampleInfo cls az el total D seg t1 sub := by
  induction segs generalizing t0 with
  | nil => cases hp
  | cons seg rest ih =>
    rw [exposureSamples] at hp
    rcases List.mem_append.mp hp with h | h
    · obtain ⟨sub, _, hsub⟩ := List.mem_map.mp h
      exact ⟨seg, t0, sub, hsub.symm⟩
    · exact ih _ h

theorem exposureSamples_time_nonneg (cls : ℝ → ℝ → ℝ → Option Quadrant)
    (az el : ℝ → ℝ → ℝ → ℝ) (total D : ℝ) (segs : List ((ℝ × ℝ) × (ℝ × ℝ))) (t0 : ℝ)
    (htotal : 0 < total) (hD : 0 ≤ D) :
    ∀ p ∈ exposureSamples cls az el total D segs t0, 0 ≤ p.time_s := by
  intro p hp
  obtain ⟨seg, t1, sub, rfl⟩ := mem_exposureSamples cls az el total D segs t0 p hp
  rw [sampleInfo_time]
  have h1 := segTime_nonneg total D seg htotal hD
  have h2 : (0 : ℝ) < (nSub (segDist seg) : ℝ) := by
    exact_mod_cast nSub_pos (segDist seg)
  positivity

theorem map_segTime_sum (segs : List ((ℝ × ℝ) × (ℝ × ℝ))) (total D : ℝ) :
    (segs.map (segTime total D)).sum = (segs.map segDist).sum * D / total := by
  induction segs with
  | nil => simp
  | cons seg rest ih =>
    rw [List.map_cons, List.sum_cons, List.map_cons, List.sum_cons, ih]
    unfold segTime
    ring

theorem allMinutes_exposureSamples (cls : ℝ → ℝ → ℝ → Option Quadrant)
    (az el : ℝ → ℝ → ℝ → ℝ) (total D : ℝ) (segs : List ((ℝ × ℝ) × (ℝ × ℝ))) (t0 : ℝ) :
    allMinutes (exposureSamples cls az el total D segs t0)
      = (segs.map (segTime total D)).sum / 60 := by
  induction segs generalizing t0 with
  | nil => simp [exposureSamples, allMinutes]
  | cons seg rest ih =>
    rw [exposureSamples, allMinutes_append, ih, List.map_cons, List.sum_cons]
    have hseg : allMinutes ((List.range (nSub (segDist seg))).map
        (sampleInfo cls az el total D seg t0)) = segTime total D seg / 60 := by
      unfold allMinutes
      rw [List.map_map]
      have hfun : ((fun p => p.time_s / 60) ∘ sampleInfo cls az el total D seg t0)
          = fun _ => segTime total D seg / (nSub (segDist seg) : ℝ) / 60 := by
        funext k
        rfl
      rw [hfun, List.map_const', List.length_range, List.sum_replicate, nsmul_eq_mul]
      have hn : ((nSub (segDist seg) : ℝ)) ≠ 0 := by
        have := nSub_pos (segDist seg)
        positivity
      field_simp
      ring
    rw [hseg]
    ring

theorem compute_exposure_sum_eq_counted (az el : ℝ → ℝ → ℝ → ℝ) (coords : List (ℝ × ℝ))
    (D dt : ℝ) (hne : totalDistance coords ≠ 0) :
    (compute_exposure az el coords D dt).sum
      = countedMinutes (exposureSamples classifySample az el (totalDistance coords) D
          (segPairs coords) dt) := by
  unfold compute_exposure computeExposureWith
  rw [if_neg hne, foldl_segments_sum]
  simp [Totals.zero, Totals.sum]

theorem segTime_sum_eq (coords : List (ℝ × ℝ)) (D : ℝ) (hne : totalDistance coords ≠ 0) :
    ((segPairs coords).map (segTime (totalDistance coords) D)).sum = D := by
  rw [map_segTime_sum]
  have h : ((segPairs coords).map segDist).sum = totalDistance coords := rfl
  rw [h]
  field_simp

theorem compute_exposure_sum_le (az el : ℝ → ℝ → ℝ → ℝ) (coords : List (ℝ × ℝ))
    (D dt : ℝ) (hpos : 0 < totalDistance coords) (hD : 0 ≤ D) :
    (compute_exposure az el coords D dt).sum ≤ D / 60 := by
  rw [compute_exposure_sum_eq_counted az el coords D dt hpos.ne']
  have h1 := countedMinutes_le_allMinutes _
    (exposureSamples_time_nonneg classifySample az el (totalDistance coords) D
      (segPairs coords) dt hpos hD)
  rw [allMinutes_exposureSamples, segTime_sum_eq coords D hpos.ne'] at h1
  exact h1

theorem compute_exposure_sum_eq_iff (az el : ℝ → ℝ → ℝ → ℝ) (coords : List (ℝ × ℝ))
    (D dt : ℝ) (hpos : 0 < totalDistance coords) (hD : 0 ≤ D) :
    (compute_exposure az el coords D dt).sum = D / 60 ↔
      ∀ p ∈ exposureSamples classifySample az el (totalDistance coords) D
          (segPairs coords) dt, 0 < p.time_s → p.cls.isSome = true := by
  rw [compute_exposure_sum_eq_counted az el coords D dt hpos.ne']
  rw [show D / 60 = allMinutes (exposureSamples classifySample az el (totalDistance coords) D
      (segPairs coords) dt) from by
    rw [allMinutes_exposureSamples, segTime_sum_eq coords D hpos.ne']]
  exact countedMinutes_eq_iff _
    (exposureSamples_time_nonneg classifySample az el (totalDistance coords) D
      (segPairs coords) dt hpos hD)

theorem sampleInfo_isSome_iff (az el : ℝ → ℝ → ℝ → ℝ) (total D : ℝ)
    (seg : (ℝ × ℝ) × (ℝ × ℝ)) (t1 : ℝ) (sub : ℕ) :
    ((sampleInfo classifySample az el total D seg t1 sub).cls.isSome = true)
      ↔ (0 < (sampleInfo classifySample az el total D seg t1 sub).elev
         ∧ 30 ≤ |(sampleInfo classifySample az el total D seg t1 sub).rel|
         ∧ |(sampleInfo classifySample az el total D seg t1 sub).rel| ≤ 150) :=
  classifySample_isSome_iff _ _ _

/-- C1 amended: for every polyline with at least 2 points and positive
total great-circle distance, every non-negative total duration, every
departure timestamp and any solar-position function, the sum of the four
quadrant accumulators is at most totalDurationSeconds over 60 minutes,
with equality only if every sample whose sub-interval time share is
positive has elevation above 0 and absolute relative angle between 30 and
150. (A sample on a zero-length segment carries zero time and cannot
break equality.) -/
theorem claim1_exposure_bound (az el : ℝ → ℝ → ℝ → ℝ) (coords : List (ℝ × ℝ)) (D dt : ℝ)
    (hlen : 2 ≤ coords.length) (hpos : 0 < totalDistance coords) (hD : 0 ≤ D) :
    (compute_exposure az el coords D dt).sum ≤ D / 60 ∧
    ((compute_exposure az el coords D dt).sum = D / 60 →
      ∀ p ∈ exposureSamples classifySample az el (totalDistance coords) D
          (segPairs coords) dt,
        0 < p.time_s → (0 < p.elev ∧ 30 ≤ |p.rel| ∧ |p.rel| ≤ 150)) := by
  refine ⟨compute_exposure_sum_le az el coords D dt hpos hD, ?_⟩
  intro heq p hp hpt
  have hsome := (compute_exposure_sum_eq_iff az el coords D dt hpos hD).mp heq p hp hpt
  obtain ⟨seg, t1, sub, rfl⟩ :=
    mem_exposureSamples classifySample az el (totalDistance coords) D (segPairs coords) dt p hp
  exact (sampleInfo_isSome_iff az el (totalDistance coords) D seg t1 sub).mp hsome

theorem haversine_pole_pos : 0 < haversine 0 0 90 0 := by
  have ha : Real.sin (radians (90 - 0) / 2) ^ 2
      + Real.cos (radians 0) * Real.cos (radians 90) * Real.sin (radians (0 - 0) / 2) ^ 2
      = 1 / 2 := by
    rw [show ((90 : ℝ) - 0) = 90 from by norm_num, show ((0 : ℝ) - 0) = 0 from by norm_num]
    rw [show radians 90 = Real.pi / 2 from by unfold radians; ring,
        show radians 0 = 0 from by unfold radians; ring]
    rw [show Real.pi / 2 / 2 = Real.pi / 4 from by ring]
    rw [Real.sin_pi_div_four, Real.cos_pi_div_two]
    rw [show (0 : ℝ) / 2 = 0 from by norm_num, Real.sin_zero]
    rw [div_pow, Real.sq_sqrt (by norm_num : (0 : ℝ) ≤ 2)]
    norm_num
  have hkey : 0 < atan2 (Real.sqrt (1 / 2)) (Real.sqrt (1 - 1 / 2)) := by
    have hpos2 : (0 : ℝ) < Real.sqrt (1 - 1 / 2) := Real.sqrt_pos.mpr (by norm_num)
    unfold atan2
    rw [if_pos hpos2]
    rw [show Real.sqrt (1 / 2) / Real.sqrt (1 - 1 / 2) = 1 from by
      rw [show (1 : ℝ) - 1 / 2 = 1 / 2 from by norm_num]
      exact div_self (ne_of_gt (Real.sqrt_pos.mpr (by norm_num)))]
    rw [Real.arctan_one]
    linarith [Real.pi_pos]
  have heval : haversine 0 0 90 0
      = 6371 * 2 * atan2 (Real.sqrt (1 / 2)) (Real.sqrt (1 - 1 / 2)) := by
    simp only [haversine]
    rw [ha]
  rw [heval]
  linarith [hkey]

theorem totalDistance_pole_pos : 0 < totalDistance [((0 : ℝ), (0 : ℝ)), (0, 90)] := by
  have h : totalDistance [((0 : ℝ), (0 : ℝ)), (0, 90)] = haversine 0 0 90 0 := by
    unfold totalDistance
    rw [show segPairs [((0 : ℝ), (0 : ℝ)), (0, 90)]
        = [(((0 : ℝ), (0 : ℝ)), ((0 : ℝ), (90 : ℝ)))] from rfl]
    simp [segDist]
  rw [h]
  exact haversine_pole_pos

/-- C1 witness: a two-point polyline from the equator to the pole has
length 2 and positive total distance; with duration 600 the amended bound
holds. -/
theorem claim1_witness :
    (2 ≤ ([((0 : ℝ), (0 : ℝ)), (0, 90)] : List (ℝ × ℝ)).length ∧
      0 < totalDistance [((0 : ℝ), (0 : ℝ)), (0, 90)] ∧ (0 : ℝ) ≤ 600) ∧
    ((compute_exposure (fun _ _ _ => 90) (fun _ _ _ => 1)
        [((0 : ℝ), (0 : ℝ)), (0, 90)] 600 0).sum ≤ 600 / 60 ∧
      ((compute_exposure (fun _ _ _ => 90) (fun _ _ _ => 1)
          [((0 : ℝ), (0 : ℝ)), (0, 90)] 600 0).sum = 600 / 60 →
        ∀ p ∈ exposureSamples classifySample (fun _ _ _ => 90) (fun _ _ _ => 1)
            (totalDistance [((0 : ℝ), (0 : ℝ)), (0, 90)]) 600
            (segPairs [((0 : ℝ), (0 : ℝ)), (0, 90)]) 0,
          0 < p.time_s → (0 < p.elev ∧ 30 ≤ |p.rel| ∧ |p.rel| ≤ 150))) :=
  ⟨⟨by norm_num, totalDistance_pole_pos, by norm_num⟩,
    claim1_exposure_bound (fun _ _ _ => 90) (fun _ _ _ => 1) [((0 : ℝ), (0 : ℝ)), (0, 90)]
      600 0 (by norm_num) totalDistance_pole_pos (by norm_num)⟩

theorem classify_unit_right : classifySample 1 90 0 = some Quadrant.front_right := by
  unfold classifySample SIDE_THRESHOLD
  rw [if_pos one_pos]
  rw [show normalize ((90 : ℝ) - 0) = 90 from by
    rw [show ((90 : ℝ) - 0) = 90 from by norm_num]
    exact normalize_eq_self 90 (by norm_num) (by norm_num)]
  norm_num

theorem bearing_pole : calculate_bearing 0 0 90 0 = 0 := by
  have hx : Real.sin (radians (0 - 0)) * Real.cos (radians 90) = 0 := by
    rw [show ((0 : ℝ) - 0) = 0 from by norm_num,
        show radians 0 = 0 from by unfold radians; ring, Real.sin_zero, zero_mul]
  have hy : Real.cos (radians 0) * Real.sin (radians 90)
      - Real.sin (radians 0) * Real.cos (radians 90) * Real.cos (radians (0 - 0)) = 1 := by
    rw [show ((0 : ℝ) - 0) = 0 from by norm_num,
        show radians 0 = 0 from by unfold radians; ring,
        show radians 90 = Real.pi / 2 from by unfold radians; ring,
        Real.sin_zero, Real.cos_zero, Real.sin_pi_div_two]
    ring
  simp only [calculate_bearing]
  rw [hx, hy]
  rw [show atan2 0 1 = 0 from by
    unfold atan2
    rw [if_pos one_pos]
    norm_num [Real.arctan_zero]]
  rw [show degrees 0 = 0 from by unfold degrees; ring]
  unfold pymod
  rw [show ((0 : ℝ) + 360) / 360 = 1 from by norm_num, Int.floor_one]
  norm_num

theorem cex_segPairs : segPairs cexCoords = [cexSeg1, cexSeg2] := rfl

theorem cex_segDist2 : segDist cexSeg2 = 0 := haversine_self 90 0

theorem cex_totalDistance : totalDistance cexCoords = haversine 0 0 90 0 := by
  unfold totalDistance
  rw [cex_segPairs]
  simp only [List.map_cons, List.map_nil, List.sum_cons, List.sum_nil]
  rw [show segDist cexSeg2 = 0 from cex_segDist2]
  rw [show segDist cexSeg1 = haversine 0 0 90 0 from rfl]
  ring

theorem cex_total_pos : 0 < totalDistance cexCoords := by
  rw [cex_totalDistance]
  exact haversine_pole_pos

theorem cex_seg2_time (t1 : ℝ) (sub : ℕ) :
    (sampleInfo classifySample cexAz cexEl (totalDistance cexCoords) 60 cexSeg2 t1 sub).time_s
      = 0 := by
  rw [sampleInfo_time]
  unfold segTime
  rw [cex_segDist2]
  simp

theorem cex_seg1_cls (t1 : ℝ) (sub : ℕ) (hsub : sub < nSub (segDist cexSeg1)) :
    (sampleInfo classifySample cexAz cexEl (totalDistance cexCoords) 60 cexSeg1 t1 sub).cls
      = some Quadrant.front_right := by
  have hn : (0 : ℝ) < (nSub (segDist cexSeg1) : ℝ) := by
    exact_mod_cast nSub_pos (segDist cexSeg1)
  have hfrac : ((sub : ℝ) + 0.5) / (nSub (segDist cexSeg1) : ℝ) < 1 := by
    rw [div_lt_one hn]
    have hcast : (sub : ℝ) + 1 ≤ (nSub (segDist cexSeg1) : ℝ) := by
      exact_mod_cast hsub
    linarith
  have hlat : (0 : ℝ) + ((90 : ℝ) - 0) * (((sub : ℝ) + 0.5) / (nSub (segDist cexSeg1) : ℝ))
      < 90 := by
    have hm : ((90 : ℝ) - 0) * (((sub : ℝ) + 0.5) / (nSub (segDist cexSeg1) : ℝ))
        < (90 - 0) * 1 := by
      exact (mul_lt_mul_left (by norm_num)).mpr hfrac
    linarith
  rw [show (sampleInfo classifySample cexAz cexEl (totalDistance cexCoords) 60
        cexSeg1 t1 sub).cls
      = classifySample
          (if (0 : ℝ) + ((90 : ℝ) - 0) * (((sub : ℝ) + 0.5) / (nSub (segDist cexSeg1) : ℝ))
              < 90 then (1 : ℝ) else -1)
          90 (calculate_bearing 0 0 90 0) from rfl]
  rw [if_pos hlat, bearing_pole]
  exact classify_unit_right

theorem cex_all_counted :
    ∀ p ∈ exposureSamples classifySample cexAz cexEl (totalDistance cexCoords) 60
        (segPairs cexCoords) 0, 0 < p.time_s → p.cls.isSome = true := by
  intro p hp hpt
  rw [cex_segPairs] at hp
  simp only [exposureSamples] at hp
  rcases List.mem_append.mp hp with h | h
  · obtain ⟨sub, hsubmem, rfl⟩ := List.mem_map.mp h
    rw [cex_seg1_cls _ _ (List.mem_range.mp hsubmem)]
    rfl
  · rw [List.append_nil] at h
    obtain ⟨sub, _, rfl⟩ := List.mem_map.mp h
    rw [cex_seg2_time] at hpt
    exact absurd hpt (lt_irrefl 0)

theorem cex_sum : (compute_exposure cexAz cexEl cexCoords 60 0).sum = 60 / 60 :=
  (compute_exposure_sum_eq_iff cexAz cexEl cexCoords 60 0 cex_total_pos
    (by norm_num)).mpr cex_all_counted

theorem cex_bad_sample :
    ∃ p ∈ exposureSamples classifySample cexAz cexEl (totalDistance cexCoords) 60
        (segPairs cexCoords) 0, p.elev ≤ 0 := by
  refine ⟨sampleInfo classifySample cexAz cexEl (totalDistance cexCoords) 60 cexSeg2
      (0 + segTime (totalDistance cexCoords) 60 cexSeg1) 0, ?_, ?_⟩
  · rw [cex_segPairs]
    simp only [exposureSamples]
    apply List.mem_append_right
    apply List.mem_append_left
    apply List.mem_map.mpr
    refine ⟨0, ?_, rfl⟩
    rw [List.mem_range]
    exact nSub_pos _
  · rw [show (sampleInfo classifySample cexAz cexEl (totalDistance cexCoords) 60 cexSeg2
        (0 + segTime (totalDistance cexCoords) 60 cexSeg1) 0).elev
      = (if (90 : ℝ) + ((90 : ℝ) - 90) * ((((0 : ℕ) : ℝ) + 0.5) / (nSub (segDist cexSeg2) : ℝ))
            < 90 then (1 : ℝ) else -1) from rfl]
    rw [show (90 : ℝ) + ((90 : ℝ) - 90)
        * ((((0 : ℕ) : ℝ) + 0.5) / (nSub (segDist cexSeg2) : ℝ)) = 90 from by ring]
    rw [if_neg (lt_irrefl 90)]
    norm_num

/-- C1 counterexample: on the three-point polyline whose last point is
duplicated, with sun due east and above the horizon everywhere except at
the pole, the exposure sum equals the full 60 over 60 minutes although the
sample on the zero-length final segment has elevation below zero, so
equality does not force every sample to have positive elevation. -/
theorem claim1_counterexample :
    (compute_exposure cexAz cexEl cexCoords 60 0).sum = 60 / 60 ∧
    ∃ p ∈ exposureSamples classifySample cexAz cexEl (totalDistance cexCoords) 60
        (segPairs cexCoords) 0, p.elev ≤ 0 :=
  ⟨cex_sum, cex_bad_sample⟩

/-! Claim theorems about the two caches. -/

/-- C7 counterexample: the route cache does not record negative results.
On an empty cache, a failing route fetch propagates the error and leaves
the cache empty, with no entry under the key, and a repeated request with
the same key consults the network again (here a succeeding retry gets
through, which the claimed negative entry would have prevented). -/
theorem claim7_counterexample :
    get_route RouteFetch.failed [] 0 0 1 1 = (Except.error (), []) ∧
    ((get_route RouteFetch.failed [] 0 0 1 1).2).lookup (routeKey 0 0 1 1) = none ∧
    get_route (RouteFetch.ok [((5 : ℚ), 5)] 100) [] 0 0 1 1
      = (Except.ok ([((5 : ℚ), 5)], 100),
         [(routeKey 0 0 1 1, ([((5 : ℚ), 5)], 100))]) :=
  ⟨rfl, rfl, rfl⟩

/-- C7 amended: the geocode cache records negative results: after a
geocoding lookup fails or finds nothing for an uncached name, a negative
entry is stored under the normalized key, the call returns none, and a
repeated lookup with the same name answers from the cache (returning none
and leaving the cache unchanged) no matter how the network now behaves.
The route cache, by contrast, records only successes: a failed route fetch
for an uncached key propagates the error and leaves the route cache
unchanged, so a repeated lookup re-issues the request. -/
theorem claim7_caches (gfetch gfetch' : String → GeoFetch)
    (gcache : List (String × Option (ℚ × ℚ))) (name : String)
    (hmiss : gcache.lookup (geoKey name) = none)
    (hfail : gfetch name = GeoFetch.empty ∨ gfetch name = GeoFetch.failed)
    (rcache : List ((ℚ × ℚ × ℚ × ℚ) × (List (ℚ × ℚ) × ℚ)))
    (a b c d : ℚ) (hrmiss : rcache.lookup (routeKey a b c d) = none) :
    (geocode_location gfetch gcache name).1 = none ∧
    ((geocode_location gfetch gcache name).2).lookup (geoKey name) = some none ∧
    geocode_location gfetch' ((geocode_location gfetch gcache name).2) name
      = (none, (geocode_location gfetch gcache name).2) ∧
    get_route RouteFetch.failed rcache a b c d = (Except.error (), rcache) := by
  have hroute : get_route RouteFetch.failed rcache a b c d = (Except.error (), rcache) := by
    simp only [get_route]
    rw [hrmiss]
  have hgeo : geocode_location gfetch gcache name = (none, (geoKey name, none) :: gcache) := by
    simp only [geocode_location]
    rw [hmiss]
    rcases hfail with hf | hf <;> rw [hf]
  refine ⟨by rw [hgeo], ?_, ?_, hroute⟩
  · rw [hgeo]
    simp [List.lookup]
  · rw [hgeo]
    simp only [geocode_location]
    simp [List.lookup]

/-- C7 witness: with an empty geocode cache, the name paris, a fetch that
finds nothing and an empty route cache, the hypotheses hold and the
amended conclusion follows. -/
theorem claim7_witness :
    ((([] : List (String × Option (ℚ × ℚ))).lookup (geoKey ("paris")) = none) ∧
      ((fun _ : String => GeoFetch.empty) ("paris") = GeoFetch.empty ∨
        (fun _ : String => GeoFetch.empty) ("paris") = GeoFetch.failed) ∧
      (([] : List ((ℚ × ℚ × ℚ × ℚ) × (List (ℚ × ℚ) × ℚ))).lookup (routeKey 0 0 1 1) = none)) ∧
    ((geocode_location (fun _ => GeoFetch.empty) [] ("paris")).1 = none ∧
      ((geocode_location (fun _ => GeoFetch.empty) [] ("paris")).2).lookup (geoKey ("paris"))
        = some none ∧
      geocode_location (fun _ => GeoFetch.failed)
          ((geocode_location (fun _ => GeoFetch.empty) [] ("paris")).2) ("paris")
        = (none, (geocode_location (fun _ => GeoFetch.empty) [] ("paris")).2) ∧
      get_route RouteFetch.failed [] 0 0 1 1 = (Except.error (), [])) :=
  ⟨⟨rfl, Or.inl rfl, rfl⟩,
    claim7_caches (fun _ => GeoFetch.empty) (fun _ => GeoFetch.failed) [] ("paris")
      rfl (Or.inl rfl) [] 0 0 1 1 rfl⟩

/-- C10: the tie-break at a relative angle of exactly zero is unobservable:
the variant of compute_exposure that classifies relative angle zero as
right instead of left returns the same totals on every input, because a
zero relative angle falls in the front dead zone and accumulates
nothing. -/
theorem claim10_tiebreak (az el : ℝ → ℝ → ℝ → ℝ) (coords : List (ℝ × ℝ)) (D dt : ℝ) :
    compute_exposure az el coords D dt = computeExposureGe az el coords D dt := by
  unfold compute_exposure computeExposureGe
  have h : classifySample = classifySampleGe := by
    funext a b c
    exact classifySample_eq_ge a b c
  rw [h]

end Seatify

namespace Seatify

theorem buildRows_length (e : ExposureTotalsQ) (tr : ℕ) : (buildRows e tr).length = 5 * tr := by
  unfold buildRows
  rw [List.length_flatten, List.map_map]
  have h : (List.length ∘ fun r => rowSeats e tr (r + 1)) = fun _ => 5 := by
    funext r
    rfl
  rw [h, List.map_const', List.sum_replicate, smul_eq_mul, List.length_range, mul_comm]

theorem c6_row_e3 (row : ℕ) (h1 : 1 ≤ row) (h2 : row ≤ 12) :
    (rowSeats ⟨1 / 1000, 0, 0, 0⟩ 12 row).map (fun s => s.exposure_minutes)
      = [0, 0, 0, 0, 0] := by
  have hr1 : (1 : ℚ) ≤ (row : ℚ) := by exact_mod_cast h1
  have hr2 : (row : ℚ) ≤ 12 := by exact_mod_cast h2
  have hd : (0 : ℚ) ≤ 12 - (row : ℚ) := by linarith
  rw [rowSeats_map_minutes]
  dsimp only
  rw [show (((12 : ℕ) : ℚ) - (row : ℚ)) / ((12 : ℕ) : ℚ) * (1 / 1000)
        + (row : ℚ) / ((12 : ℕ) : ℚ) * 0 = (12 - (row : ℚ)) / 12000 from by
      push_cast
      ring,
    show (((12 : ℕ) : ℚ) - (row : ℚ)) / ((12 : ℕ) : ℚ) * 0
        + (row : ℚ) / ((12 : ℕ) : ℚ) * 0 = 0 from by
      push_cast
      ring]
  simp only [zero_mul, List.cons.injEq, and_true]
  refine ⟨?_, ?_, ?_, ?_, ?_⟩
  · exact round_to_eq_zero 2 _ (by positivity) (by nlinarith)
  · exact round_to_eq_zero 2 _ (by positivity) (by nlinarith)
  · exact round_to_zero_eq 2
  · exact round_to_zero_eq 2
  · exact round_to_zero_eq 2

theorem c6_map_e2 : (buildRows ⟨60, 60, 0, 0⟩ 12).map (fun s => s.exposure_minutes)
    = (List.replicate 12 ([60, 15, 0, 0, 0] : List ℚ)).flatten := by
  unfold buildRows
  rw [List.map_flatten, List.map_map]
  congr 1
  rw [show (List.map (fun s => s.exposure_minutes) ∘ fun r => rowSeats ⟨60, 60, 0, 0⟩ 12 (r + 1))
        = fun _ => ([60, 15, 0, 0, 0] : List ℚ) from funext fun r => c6_row_e2 (r + 1)]
  rw [List.map_const', List.length_range]

theorem c6_map_e3 : (buildRows ⟨1 / 1000, 0, 0, 0⟩ 12).map (fun s => s.exposure_minutes)
    = (List.replicate 12 ([0, 0, 0, 0, 0] : List ℚ)).flatten := by
  unfold buildRows
  rw [List.map_flatten, List.map_map]
  congr 1
  rw [show List.range 12 = [0, 1, 2, 3, 4, 5, 6, 7, 8, 9, 10, 11] from rfl]
  simp only [List.map_cons, List.map_nil, Function.comp]
  norm_num [c6_row_e3]
  rfl

theorem c6_hmax : maxExposure (buildRows ⟨60, 60, 0, 0⟩ 12) = 60 := by
  unfold maxExposure
  rw [c6_map_e2]
  norm_num [List.replicate, max_def]

theorem c6_hmax2 : maxExposure (buildRows ⟨1 / 1000, 0, 0, 0⟩ 12) = 0 := by
  unfold maxExposure
  rw [c6_map_e3]
  norm_num [List.replicate, max_def]

end Seatify

namespace Seatify

theorem c6_mem1 : SeatBase.mk ("L1A") 1 Side.LEFT SeatPos.WINDOW 60 ∈ buildRows ⟨60, 60, 0, 0⟩ 12 := by
  apply mem_buildRows_of_row _ _ 0 (by norm_num)
  simp only [rowSeats, List.mem_cons]
  left
  simp only [SeatBase.mk.injEq]
  refine ⟨by decide, by norm_num, trivial, trivial, ?_⟩
  norm_num [round_to, rhe]

theorem c6_mem2 : SeatBase.mk ("L2A") 2 Side.LEFT SeatPos.WINDOW 60 ∈ buildRows ⟨60, 60, 0, 0⟩ 12 := by
  apply mem_buildRows_of_row _ _ 1 (by norm_num)
  simp only [rowSeats, List.mem_cons]
  left
  simp only [SeatBase.mk.injEq]
  refine ⟨by decide, by norm_num, trivial, trivial, ?_⟩
  norm_num [round_to, rhe]

/-- C6 counterexample: with totals 60 in both left quadrants, every left
window seat gets 60 minutes, so the seats L1A and L2A both reach
exposure_ratio 1.0, refuting uniqueness; and with the tiny positive total
front_left one-thousandth, every seat rounds to 0 minutes, the maximum is
0, and no seat reaches ratio 1.0 although the totals are not all zero. -/
theorem claim6_counterexample :
    Seat.mk ("L1A") 1 Side.LEFT SeatPos.WINDOW 60 1 ∈ build_seat_list ⟨60, 60, 0, 0⟩ 12 ∧
    Seat.mk ("L2A") 2 Side.LEFT SeatPos.WINDOW 60 1 ∈ build_seat_list ⟨60, 60, 0, 0⟩ 12 ∧
    Seat.mk ("L1A") 1 Side.LEFT SeatPos.WINDOW 60 1 ≠ Seat.mk ("L2A") 2 Side.LEFT SeatPos.WINDOW 60 1 ∧
    (build_seat_list ⟨1 / 1000, 0, 0, 0⟩ 12).map (fun s => s.exposure_ratio)
      = List.replicate 60 (0 : ℚ) := by
  refine ⟨?_, ?_, ?_, ?_⟩
  · simp only [build_seat_list]
    refine List.mem_map.mpr ⟨_, c6_mem1, ?_⟩
    rw [c6_hmax]
    norm_num [round_to, rhe]
  · simp only [build_seat_list]
    refine List.mem_map.mpr ⟨_, c6_mem2, ?_⟩
    rw [c6_hmax]
    norm_num [round_to, rhe]
  · simp [Seat.mk.injEq]
  · simp only [build_seat_list, c6_hmax2]
    norm_num
    have h : ((fun s => s.exposure_ratio) ∘ fun s : SeatBase =>
        Seat.mk s.seat_id s.row s.side s.pos s.exposure_minutes 0) = fun _ => (0 : ℚ) := by
      funext s
      rfl
    rw [h, List.map_const', buildRows_length]

end Seatify
